import Mathlib

/-!
Shallow embedding of the CRUD glue in this terraform provider repository:
the SSO Admin application grant and application authentication method
resources, the Verified Permissions identity source resource, the IoT
software package resource, and the WAF regional web ACL helpers.

Modelling conventions, used uniformly below:
  - A framework string attribute (types.String) is `FwString`: null or a
    known value.  Unknown values never reach the code paths studied here,
    so the unknown variant is omitted.
  - A framework list, set or nested-block attribute (types.List, types.Set)
    is `Option (List alpha)`: `none` is the null collection, `some xs` a
    known collection with elements `xs`.  A Go slice is also
    `Option (List alpha)`: `none` is the nil slice.  Set values are kept in
    insertion order, matching the element order the Go code produces.
  - A vendor SDK client call is a function argument (an oracle) returning
    the pair of the output pointer and the error, exactly the two Go
    return values.
  - Go errors are the inductive `GoError`; the dedicated not-found wrapper
    retry.NotFoundError is the `notFound` constructor, carrying the last
    error and the value the Go code stores in LastRequest (`GoReq`).
  - A Go run that dereferences a nil pointer is modelled with
    `Except String`, the error being `nilDereference`.
-/

/-- Framework string value: terraform-plugin-framework types.String,
restricted to the null and known cases. -/
inductive FwString where
  | null : FwString
  | value : String → FwString
deriving DecidableEq, Repr

/-- ValueString of a framework string: the known value, or the empty
string for null. -/
def FwString.valueString : FwString → String
  | .null => ""
  | .value s => s

/-- String() of a framework string: the debug representation, which wraps
a known value in double quotes and prints null as a placeholder. -/
def FwString.goString : FwString → String
  | .null => "<null>"
  | .value s => "\"" ++ s ++ "\""

/-- flex.StringToFramework: a nil Go string pointer becomes the null
framework string, otherwise the pointed-to value. -/
def stringToFramework : Option String → FwString
  | none => .null
  | some s => .value s

/-- flex.StringFromFramework: the inverse direction, null becomes nil. -/
def stringFromFramework : FwString → Option String
  | .null => none
  | .value s => some s

/-- flex.StringValueToFramework: wraps a plain Go string as a known
framework value. -/
def stringValueToFramework (s : String) : FwString :=
  .value s

/-- flex.ExpandFrameworkStringValueList: a null framework list becomes a
nil slice, a known list keeps its elements. -/
def expandFrameworkStringValueList : Option (List String) → Option (List String)
  | none => none
  | some l => some l

/-- flex.FlattenFrameworkStringValueList: a nil or empty slice becomes the
null framework list, otherwise the elements are kept. -/
def flattenFrameworkStringValueList : Option (List String) → Option (List String)
  | none => none
  | some [] => none
  | some (x :: xs) => some (x :: xs)

/-- Message used where the Go code would dereference a nil pointer. -/
def nilDereference : String := "invalid memory address or nil pointer dereference"

/-- GetPackageOutput of the IoT SDK, the fields this repository reads. -/
structure GetPackageOutput where
  description : Option String
  packageArn : Option String
  packageName : Option String
deriving DecidableEq, Repr

/-- The value the Go code stores in retry.NotFoundError.LastRequest (or in
tfresource.NewEmptyResultError): normally the request of the failed SDK
call, but FindSoftwarePackageByName stores the SDK output instead. -/
inductive GoReq where
  | appGrant (applicationArn grantType : String)
  | identitySource (id : String)
  | appAuthMethod (applicationArn methodType : String)
  | iotGetPackage (packageName : String)
  | iotGetPackageOutput (out : Option GetPackageOutput)
deriving DecidableEq, Repr

/-- Go error values reaching the code under study: the vendor
ResourceNotFoundException, a generic error carrying a message (any other
SDK or helper error), the retry.NotFoundError wrapper built by the
finders, and the tfresource empty-result error. -/
inductive GoError where
  | resourceNotFound (msg : String)
  | goError (msg : String)
  | notFound (lastError : GoError) (lastRequest : GoReq)
  | emptyResult (req : GoReq)
deriving DecidableEq, Repr

/-- errs.IsA on *awstypes.ResourceNotFoundException (also
tfawserr.ErrCodeEquals on the v1 SDK error code). -/
def isRNFE : GoError → Bool
  | .resourceNotFound _ => true
  | _ => false

/-- tfresource.NotFound: the error is a retry.NotFoundError. -/
def isNotFoundError : GoError → Bool
  | .notFound _ _ => true
  | _ => false

/-- Claim-side helper: the errors a vendor SDK call can itself produce
(it never produces the provider-internal wrappers). -/
def isSdkError : GoError → Bool
  | .resourceNotFound _ => true
  | .goError _ => true
  | _ => false

/-- Rendering of a Go error as the message placed in a diagnostic. -/
def goErrMsg : GoError → String
  | .resourceNotFound m => "ResourceNotFoundException: " ++ m
  | .goError m => m
  | .notFound _ _ => "couldnt find resource"
  | .emptyResult _ => "empty result"

/-- Character-level splitter behind goSplitComma. -/
def splitCommaAux : List Char → List Char → List (List Char)
  | [], acc => [acc.reverse]
  | c :: cs, acc =>
    if c = ',' then acc.reverse :: splitCommaAux cs [] else splitCommaAux cs (c :: acc)

/-- strings.Split on the comma separator: always at least one part, empty
parts kept. -/
def goSplitComma (s : String) : List String :=
  (splitCommaAux s.data []).map String.mk

/-- Indexing into a Go string slice, as parts i of a split id whose
length the preceding checks pin down. -/
def goIndex (parts : List String) (i : Nat) : String :=
  (parts.drop i).headD ""

/-- strings.Join on the comma separator. -/
def goJoinComma : List String → String
  | [] => ""
  | [x] => x
  | x :: y :: rest => x ++ "," ++ goJoinComma (y :: rest)

/-- Modelled from the spec: composite resource ids join a fixed number of
parts with a separator and split back (internal/flex ExpandResourceId,
whose source is not under src/).  Splits the id, requiring more than one
part, exactly partCount parts, and, unless allowEmptyPart, no empty
part. -/
def expandResourceId (id : String) (partCount : Nat) (allowEmptyPart : Bool) :
    Except String (List String) :=
  let idParts := goSplitComma id
  if idParts.length ≤ 1 then
    .error ("unexpected format for ID (" ++ id ++ "), expected more than one part")
  else if idParts.length ≠ partCount then
    .error ("unexpected format for ID (" ++ id ++ "), expected parts separated by a comma")
  else if ¬allowEmptyPart ∧ idParts.any (· == "") then
    .error ("unexpected format for ID (" ++ id ++ "), the ID should not contain empty parts")
  else
    .ok idParts

/-- Modelled from the spec: the inverse of expandResourceId (internal/flex
FlattenResourceId, whose source is not under src/).  Joins the parts with
the separator after the same checks. -/
def flattenResourceId (idParts : List String) (partCount : Nat) (allowEmptyPart : Bool) :
    Except String String :=
  if idParts.length ≤ 1 then
    .error "unexpected format for ID parts, expected more than one part"
  else if idParts.length ≠ partCount then
    .error "unexpected format for ID parts, unexpected number of parts"
  else if ¬allowEmptyPart ∧ idParts.any (· == "") then
    .error "unexpected format for ID parts, the parts should not contain empty parts"
  else
    .ok (goJoinComma idParts)

/-! ## SSO Admin application grant (internal/service/ssoadmin/application_grant.go) -/

/-- applicationGrantIDPartCount from application_grant.go. -/
def applicationGrantIDPartCount : Nat := 2

/-- awstypes.AuthorizationCodeGrant. -/
structure AuthorizationCodeGrant where
  redirectUris : Option (List String)
deriving DecidableEq, Repr

/-- awstypes.AuthorizedTokenIssuer. -/
structure AuthorizedTokenIssuer where
  authorizedAudiences : Option (List String)
  trustedTokenIssuerArn : Option String
deriving DecidableEq, Repr

/-- awstypes.JwtBearerGrant. -/
structure JwtBearerGrant where
  authorizedTokenIssuers : Option (List AuthorizedTokenIssuer)
deriving DecidableEq, Repr

/-- awstypes.Grant: the union of the four grant kinds.  The refresh token
and token exchange members carry empty structs and so need no argument. -/
inductive Grant where
  | authorizationCode (value : AuthorizationCodeGrant)
  | jwtBearer (value : JwtBearerGrant)
  | refreshToken
  | tokenExchange
deriving DecidableEq, Repr

/-- ssoadmin.GetApplicationGrantOutput. -/
structure GetApplicationGrantOutput where
  grant : Option Grant
deriving DecidableEq, Repr

/-- resourceGrantApplicationCodeData: the authorization_code block. -/
structure resourceGrantApplicationCodeData where
  redirectUris : Option (List String)
deriving DecidableEq, Repr

/-- resourceGrantJwtBearerAuthorizedTokenIssuerData: one
authorized_token_issuers element. -/
structure resourceGrantJwtBearerAuthorizedTokenIssuerData where
  authorizedAudiences : Option (List String)
  trustedTokenIssuerArn : FwString
deriving DecidableEq, Repr

/-- resourceGrantJwtBearerData: the jwt_bearer block. -/
structure resourceGrantJwtBearerData where
  authorizedTokenIssuers : Option (List resourceGrantJwtBearerAuthorizedTokenIssuerData)
deriving DecidableEq, Repr

/-- resourceGrantData: one element of the grant block list.  The
refresh_token and token_exchange blocks have no attributes, so their
elements are Unit. -/
structure resourceGrantData where
  authorizationCode : Option (List resourceGrantApplicationCodeData)
  jwtBearer : Option (List resourceGrantJwtBearerData)
  refreshToken : Option (List Unit)
  tokenExchange : Option (List Unit)
deriving DecidableEq, Repr

/-- resourceApplicationGrantData: the aws_ssoadmin_application_grant
state. -/
structure resourceApplicationGrantData where
  applicationARN : FwString
  id : FwString
  grant : Option (List resourceGrantData)
  grantType : FwString
deriving DecidableEq, Repr

/-- expandApplicationCode from application_grant.go: nil for an empty
list, otherwise the authorization code grant built from the first
element. -/
def expandApplicationCode :
    List resourceGrantApplicationCodeData → Option AuthorizationCodeGrant
  | [] => none
  | tfObj :: _ => some { redirectUris := expandFrameworkStringValueList tfObj.redirectUris }

/-- expandAuthorizedTokenIssuers from application_grant.go: nil for an
empty list, otherwise one API issuer per element. -/
def expandAuthorizedTokenIssuers :
    List resourceGrantJwtBearerAuthorizedTokenIssuerData → Option (List AuthorizedTokenIssuer)
  | [] => none
  | x :: xs => some ((x :: xs).map fun tokenIssuer =>
      { authorizedAudiences := expandFrameworkStringValueList tokenIssuer.authorizedAudiences
        trustedTokenIssuerArn := stringFromFramework tokenIssuer.trustedTokenIssuerArn })

/-- expandJwtBearer from application_grant.go: nil for an empty list,
otherwise the jwt bearer grant of the first element.  ElementsAs of a null
set leaves the slice empty, modelled by getD. -/
def expandJwtBearer : List resourceGrantJwtBearerData → Option JwtBearerGrant
  | [] => none
  | tfObj :: _ => some
      { authorizedTokenIssuers :=
          expandAuthorizedTokenIssuers (tfObj.authorizedTokenIssuers.getD []) }

/-- expandGrant from application_grant.go: picks the first non-null
sub-block of the first element, in the order authorization_code,
jwt_bearer, refresh_token, token_exchange.  The authorization_code and
jwt_bearer branches dereference the helper result pointer, which is nil
when the sub-block list is empty. -/
def expandGrant (tfList : List resourceGrantData) : Except String (Option Grant) :=
  match tfList with
  | [] => .ok none
  | tfObj :: _ =>
    match tfObj.authorizationCode with
    | some acData =>
      match expandApplicationCode acData with
      | none => .error nilDereference
      | some v => .ok (some (.authorizationCode v))
    | none =>
    match tfObj.jwtBearer with
    | some jbData =>
      match expandJwtBearer jbData with
      | none => .error nilDereference
      | some v => .ok (some (.jwtBearer v))
    | none =>
    match tfObj.refreshToken with
    | some _ => .ok (some .refreshToken)
    | none =>
    match tfObj.tokenExchange with
    | some _ => .ok (some .tokenExchange)
    | none => .ok none

/-- flattenAuthorizationCode from application_grant.go. -/
def flattenAuthorizationCode :
    Option AuthorizationCodeGrant → Option (List resourceGrantApplicationCodeData)
  | none => none
  | some apiObject =>
      some [{ redirectUris := flattenFrameworkStringValueList apiObject.redirectUris }]

/-- flattenJwtBearerAuthorizedTokenIssuers from application_grant.go. -/
def flattenJwtBearerAuthorizedTokenIssuers :
    Option (List AuthorizedTokenIssuer) →
      Option (List resourceGrantJwtBearerAuthorizedTokenIssuerData)
  | none => none
  | some l => some (l.map fun object =>
      { authorizedAudiences := flattenFrameworkStringValueList object.authorizedAudiences
        trustedTokenIssuerArn := stringToFramework object.trustedTokenIssuerArn })

/-- flattenJwtBearer from application_grant.go. -/
def flattenJwtBearer : Option JwtBearerGrant → Option (List resourceGrantJwtBearerData)
  | none => none
  | some apiObject =>
      some [{ authorizedTokenIssuers :=
                flattenJwtBearerAuthorizedTokenIssuers apiObject.authorizedTokenIssuers }]

/-- flattenGrant from application_grant.go: a nil union becomes the null
list; otherwise one element whose four sub-blocks start null and whose
matching sub-block is filled by the switch.  The refresh_token and
token_exchange cases assign the null list again, so those members produce
the all-null element. -/
def flattenGrant (apiObject : Option Grant) : Option (List resourceGrantData) :=
  match apiObject with
  | none => none
  | some g =>
    let obj : resourceGrantData :=
      match g with
      | .authorizationCode v =>
          { authorizationCode := flattenAuthorizationCode (some v)
            jwtBearer := none, refreshToken := none, tokenExchange := none }
      | .jwtBearer v =>
          { authorizationCode := none
            jwtBearer := flattenJwtBearer (some v)
            refreshToken := none, tokenExchange := none }
      | .refreshToken =>
          { authorizationCode := none, jwtBearer := none
            refreshToken := none, tokenExchange := none }
      | .tokenExchange =>
          { authorizationCode := none, jwtBearer := none
            refreshToken := none, tokenExchange := none }
    some [obj]

/-- A GetApplicationGrant client call: the output pointer and the error,
as a function of the application ARN and grant type of the request. -/
def GrantConn : Type :=
  String → String → Option GetApplicationGrantOutput × Option GoError

/-- findApplicationGrantByID from application_grant.go: expands the
composite id, calls GetApplicationGrant, turns a
ResourceNotFoundException into retry.NotFoundError carrying the error and
the request, passes other errors through, and reports an empty result for
a nil output. -/
def findApplicationGrantByID (conn : GrantConn) (id : String) :
    Except GoError GetApplicationGrantOutput :=
  match expandResourceId id applicationGrantIDPartCount false with
  | .error msg => .error (.goError msg)
  | .ok parts =>
    let arn := goIndex parts 0
    let gt := goIndex parts 1
    match (conn arn gt).2 with
    | some err =>
        if isRNFE err then .error (.notFound err (.appGrant arn gt)) else .error err
    | none =>
      match (conn arn gt).1 with
      | none => .error (.emptyResult (.appGrant arn gt))
      | some out => .ok out

/-- Response of a Read call: whether the resource was removed from state,
the diagnostics added, and the resulting state (the request state when the
handler returned early). -/
structure ReadResp (σ : Type) where
  removed : Bool
  diags : List String
  state : σ
deriving DecidableEq, Repr

/-- Response of a Create call: the diagnostics and the state stored (none
when the handler returned before State.Set). -/
structure CreateResp (σ : Type) where
  diags : List String
  state : Option σ
deriving DecidableEq, Repr

/-- Request of an Update call: prior state and plan, as the framework
hands them to the resource. -/
structure UpdateRequest (σ : Type) where
  state : σ
  plan : σ
deriving DecidableEq, Repr

/-- Response of an Update call: the diagnostics, the response state, and
whether any vendor API call was made.  The framework seeds the response
state from the plan before the resource method runs. -/
structure UpdateResponse (σ : Type) where
  diags : List String
  state : σ
  apiCalled : Bool
deriving DecidableEq, Repr

/-- The update response as the framework seeds it: no diagnostics, the
state taken from the plan, no API call yet. -/
def initUpdateResponse {σ : Type} (plan : σ) : UpdateResponse σ :=
  { diags := [], state := plan, apiCalled := false }

/-- Diagnostic added when reading the application grant fails. -/
def applicationGrantReadErr (e : GoError) : String :=
  "setting SSO Admin Application Grant: " ++ goErrMsg e

/-- Diagnostic added when creating the application grant fails. -/
def applicationGrantCreateErr (e : GoError) : String :=
  "creating SSO Admin Application Grant: " ++ goErrMsg e

/-- Diagnostic added when deleting the application grant fails. -/
def applicationGrantDeleteErr (e : GoError) : String :=
  "deleting SSO Admin Application Grant: " ++ goErrMsg e

/-- resourceApplicationGrant.Create: flattens application_arn and
grant_type into the composite id (discarding the error), expands the
grant block and calls PutApplicationGrant; on success the plan, with the
id set, is stored as state.  A null grant list fails ElementsAs with a
conversion diagnostic. -/
def resourceApplicationGrantCreate
    (put : String → String → Option Grant → Option GoError)
    (plan : resourceApplicationGrantData) :
    Except String (CreateResp resourceApplicationGrantData) :=
  let applicationARN := plan.applicationARN.valueString
  let grantType := plan.grantType.valueString
  let id := ((flattenResourceId [applicationARN, grantType]
      applicationGrantIDPartCount false).toOption).getD ""
  let plan1 := { plan with id := FwString.value id }
  match plan1.grant with
  | none => .ok { diags := ["grant: null list value cannot be converted"], state := none }
  | some tfList =>
    match expandGrant tfList with
    | .error e => .error e
    | .ok grant =>
      match put applicationARN grantType grant with
      | some err => .ok { diags := [applicationGrantCreateErr err], state := none }
      | none => .ok { diags := [], state := some plan1 }

/-- resourceApplicationGrant.Read: looks the grant up by id; a not-found
result removes the resource, any other finder error adds a diagnostic and
leaves the state as it was.  On success it re-expands the id — but from
State.ID.String(), the quoted debug form, not ValueString — writes the two
parts back into application_arn and grant_type, and flattens the returned
grant.  A failed re-expansion leaves a nil parts slice, so indexing it is
a nil dereference. -/
def resourceApplicationGrantRead (conn : GrantConn)
    (state : resourceApplicationGrantData) :
    Except String (ReadResp resourceApplicationGrantData) :=
  match findApplicationGrantByID conn state.id.valueString with
  | .error err =>
    if isNotFoundError err then
      .ok { removed := true, diags := [], state := state }
    else
      .ok { removed := false, diags := [applicationGrantReadErr err], state := state }
  | .ok out =>
    match expandResourceId state.id.goString applicationGrantIDPartCount false with
    | .error _ => .error nilDereference
    | .ok idParts =>
      .ok { removed := false, diags := []
            state :=
              { state with
                applicationARN := stringValueToFramework (goIndex idParts 0)
                grantType := stringValueToFramework (goIndex idParts 1)
                grant := flattenGrant out.grant } }

/-- resourceApplicationGrant.Update: the body is empty, the response is
returned exactly as the framework seeded it. -/
def resourceApplicationGrantUpdate
    (_req : UpdateRequest resourceApplicationGrantData)
    (resp : UpdateResponse resourceApplicationGrantData) :
    UpdateResponse resourceApplicationGrantData :=
  resp

/-- resourceApplicationGrant.Delete: calls DeleteApplicationGrant with the
ARN and grant type from state; a ResourceNotFoundException is swallowed,
any other error becomes a diagnostic.  The result is the diagnostics
list. -/
def resourceApplicationGrantDelete
    (del : String → String → Option GoError)
    (state : resourceApplicationGrantData) : List String :=
  match del state.applicationARN.valueString state.grantType.valueString with
  | none => []
  | some err => if isRNFE err then [] else [applicationGrantDeleteErr err]

/-! ## Verified Permissions identity source
(internal/service/verifiedpermissions/identity_source.go) -/

/-- awstypes.CognitoGroupConfigurationDetail. -/
structure CognitoGroupConfigurationDetail where
  groupEntityType : Option String
deriving DecidableEq, Repr

/-- awstypes.CognitoUserPoolConfigurationDetail, the fields this
repository reads. -/
structure CognitoUserPoolConfigurationDetail where
  clientIds : Option (List String)
  userPoolArn : Option String
  groupConfiguration : Option CognitoGroupConfigurationDetail
deriving DecidableEq, Repr

/-- awstypes.ConfigurationDetail: the union returned by
GetIdentitySource; the repository handles its Cognito member. -/
inductive ConfigurationDetail where
  | cognitoUserPoolConfiguration (value : CognitoUserPoolConfigurationDetail)
deriving DecidableEq, Repr

/-- verifiedpermissions.GetIdentitySourceOutput, the fields this
repository reads. -/
structure GetIdentitySourceOutput where
  configuration : Option ConfigurationDetail
  identitySourceId : Option String
  policyStoreId : Option String
  principalEntityType : Option String
deriving DecidableEq, Repr

/-- GroupConfigurationData: the group_configuration block. -/
structure GroupConfigurationData where
  groupEntityType : FwString
deriving DecidableEq, Repr

/-- ConfigurationDetailData: the cognito_user_pool_configuration block. -/
structure ConfigurationDetailData where
  clientIds : Option (List String)
  userPoolArn : FwString
  groupConfiguration : Option (List GroupConfigurationData)
deriving DecidableEq, Repr

/-- ConfigurationData: one element of the configuration block list. -/
structure ConfigurationData where
  cognitoUserPoolConfiguration : Option (List ConfigurationDetailData)
deriving DecidableEq, Repr

/-- resourceIdentitySourceData: the
aws_verifiedpermissions_identity_source state. -/
structure resourceIdentitySourceData where
  configuration : Option (List ConfigurationData)
  id : FwString
  policyStoreId : FwString
  principalEntityType : FwString
deriving DecidableEq, Repr

/-- flattenGroupConfiguration from identity_source.go. -/
def flattenGroupConfiguration :
    Option CognitoGroupConfigurationDetail → Option (List GroupConfigurationData)
  | none => none
  | some apiObject => some [{ groupEntityType := stringToFramework apiObject.groupEntityType }]

/-- flattenCognitoUserPoolConfiguration from identity_source.go. -/
def flattenCognitoUserPoolConfiguration :
    Option CognitoUserPoolConfigurationDetail → Option (List ConfigurationDetailData)
  | none => none
  | some apiObject => some
      [{ clientIds := flattenFrameworkStringValueList apiObject.clientIds
         userPoolArn := stringToFramework apiObject.userPoolArn
         groupConfiguration := flattenGroupConfiguration apiObject.groupConfiguration }]

/-- flattenIdentitySourceConfiguration from identity_source.go: a nil
union becomes the null list, the Cognito member becomes a singleton
configuration element. -/
def flattenIdentitySourceConfiguration :
    Option ConfigurationDetail → Option (List ConfigurationData)
  | none => none
  | some (.cognitoUserPoolConfiguration v) =>
      some [{ cognitoUserPoolConfiguration := flattenCognitoUserPoolConfiguration (some v) }]

/-- A GetIdentitySource client call as a function of the identity source
id of the request. -/
def IdentitySourceConn : Type :=
  String → Option GetIdentitySourceOutput × Option GoError

/-- findIdentitySourceByID from identity_source.go: calls
GetIdentitySource, wraps a ResourceNotFoundException in
retry.NotFoundError with the error and the request, passes other errors
through, and reports an empty result when the output or its identity
source id is nil. -/
def findIdentitySourceByID (conn : IdentitySourceConn) (id : String) :
    Except GoError GetIdentitySourceOutput :=
  match (conn id).2 with
  | some err =>
      if isRNFE err then .error (.notFound err (.identitySource id)) else .error err
  | none =>
    match (conn id).1 with
    | none => .error (.emptyResult (.identitySource id))
    | some out =>
      match out.identitySourceId with
      | none => .error (.emptyResult (.identitySource id))
      | some _ => .ok out

/-- Diagnostic added when reading the identity source fails. -/
def identitySourceReadErr (e : GoError) : String :=
  "reading Verified Permissions Policy Store: " ++ goErrMsg e

/-- Diagnostic added when deleting the identity source fails. -/
def identitySourceDeleteErr (e : GoError) : String :=
  "deleting Verified Permissions Policy Store: " ++ goErrMsg e

/-- resourceIdentitySource.Read: a not-found finder result removes the
resource, another finder error adds a diagnostic and leaves the state; on
success id, policy_store_id and principal_entity_type are assigned from
the output — policy_store_id from output.IdentitySourceId, exactly as the
source does — and configuration from the flattened output
configuration. -/
def resourceIdentitySourceRead (conn : IdentitySourceConn)
    (state : resourceIdentitySourceData) : ReadResp resourceIdentitySourceData :=
  match findIdentitySourceByID conn state.id.valueString with
  | .error err =>
    if isNotFoundError err then
      { removed := true, diags := [], state := state }
    else
      { removed := false, diags := [identitySourceReadErr err], state := state }
  | .ok output =>
      { removed := false, diags := []
        state :=
          { configuration := flattenIdentitySourceConfiguration output.configuration
            id := stringToFramework output.identitySourceId
            policyStoreId := stringToFramework output.identitySourceId
            principalEntityType := stringToFramework output.principalEntityType } }

/-- resourceIdentitySource.Delete: calls DeleteIdentitySource with the id
from state; a ResourceNotFoundException is swallowed, any other error
becomes a diagnostic. -/
def resourceIdentitySourceDelete
    (del : Option String → Option GoError)
    (state : resourceIdentitySourceData) : List String :=
  match del (stringFromFramework state.id) with
  | none => []
  | some err => if isRNFE err then [] else [identitySourceDeleteErr err]

/-! ## SSO Admin application authentication method
(internal/service/ssoadmin/application_authentication_method.go) -/

/-- applicationAuthenticationMethodIDPartCount from
application_authentication_method.go. -/
def applicationAuthenticationMethodIDPartCount : Nat := 2

/-- awstypes.AuthenticationMethod: the union, whose only member wraps an
IAM authentication method carrying an actor policy document. -/
inductive AuthenticationMethod where
  | iam (actorPolicy : Option String)
deriving DecidableEq, Repr

/-- ssoadmin.GetApplicationAuthenticationMethodOutput. -/
structure GetApplicationAuthenticationMethodOutput where
  authenticationMethod : Option AuthenticationMethod
deriving DecidableEq, Repr

/-- The iam block of the authentication_method block. -/
structure iamData where
  actorPolicy : FwString
deriving DecidableEq, Repr

/-- One element of the authentication_method block list. -/
structure authenticationMethodData where
  iam : Option (List iamData)
deriving DecidableEq, Repr

/-- resourceApplicationAuthenticationMethodData: the
aws_ssoadmin_application_authentication_method state. -/
structure resourceApplicationAuthenticationMethodData where
  applicationARN : FwString
  authenticationMethod : Option (List authenticationMethodData)
  authenticationMethodType : FwString
  id : FwString
deriving DecidableEq, Repr

/-- A GetApplicationAuthenticationMethod client call as a function of the
application ARN and method type of the request. -/
def AuthMethodConn : Type :=
  String → String → Option GetApplicationAuthenticationMethodOutput × Option GoError

/-- findApplicationAuthenticationMethodByMethodTypeAndApplicationARN from
application_authentication_method.go: expands the composite id, calls
GetApplicationAuthenticationMethod, wraps a ResourceNotFoundException in
retry.NotFoundError with the error and the request, passes other errors
through, reports an empty result for a nil output, and returns the
authentication method field of the output. -/
def findApplicationAuthenticationMethodByMethodTypeAndApplicationARN
    (conn : AuthMethodConn) (id : String) :
    Except GoError (Option AuthenticationMethod) :=
  match expandResourceId id applicationAuthenticationMethodIDPartCount false with
  | .error msg => .error (.goError msg)
  | .ok parts =>
    let arn := goIndex parts 0
    let mt := goIndex parts 1
    match (conn arn mt).2 with
    | some err =>
        if isRNFE err then .error (.notFound err (.appAuthMethod arn mt)) else .error err
    | none =>
      match (conn arn mt).1 with
      | none => .error (.emptyResult (.appAuthMethod arn mt))
      | some output => .ok output.authenticationMethod

/-- Diagnostic added when deleting the authentication method fails. -/
def authenticationMethodDeleteErr (e : GoError) : String :=
  "deleting SSO Admin Trusted Token Issuer: " ++ goErrMsg e

/-- resourceApplicationAuthenticationMethod.Update: the body is empty, the
response is returned exactly as the framework seeded it. -/
def resourceApplicationAuthenticationMethodUpdate
    (_req : UpdateRequest resourceApplicationAuthenticationMethodData)
    (resp : UpdateResponse resourceApplicationAuthenticationMethodData) :
    UpdateResponse resourceApplicationAuthenticationMethodData :=
  resp

/-- resourceApplicationAuthenticationMethod.Delete: expands the composite
id (a failure becomes a diagnostic), calls
DeleteApplicationAuthenticationMethod; a ResourceNotFoundException is
swallowed, any other error becomes a diagnostic. -/
def resourceApplicationAuthenticationMethodDelete
    (del : String → String → Option GoError)
    (state : resourceApplicationAuthenticationMethodData) : List String :=
  match expandResourceId state.id.valueString
      applicationAuthenticationMethodIDPartCount false with
  | .error msg => [msg]
  | .ok parts =>
    match del (goIndex parts 0) (goIndex parts 1) with
    | none => []
    | some err => if isRNFE err then [] else [authenticationMethodDeleteErr err]

/-! ## IoT software package (internal/service/iot/software_package.go) -/

/-- iot.CreatePackageOutput, the fields this repository reads. -/
structure CreatePackageOutput where
  packageArn : Option String
  packageName : Option String
deriving DecidableEq, Repr

/-- The schema.ResourceData fields of aws_iot_software_package: the id and
the description, package_name and package_arn attributes.  Get on an
unset string attribute yields the empty string, so plain strings model
description and package_name. -/
structure softwarePackageData where
  id : String
  description : String
  packageName : String
  packageArn : Option String
deriving DecidableEq, Repr

/-- Names the read helper a CRUD handler hands control to next.  The
source of resourceSoftwarePackageCreate and resourceSoftwarePackageUpdate
appends the diagnostics of resourcePolicyRead, the read helper of the
aws_iot_policy resource, not of resourceSoftwarePackageRead. -/
inductive IotReadFn where
  | policyRead
  | softwarePackageRead
deriving DecidableEq, Repr

/-- Result of resourceSoftwarePackageCreate: the diagnostics gathered
before handing off, the resource data after SetId and the package_arn
Set, and the read helper invoked to fill the remaining fields (none when
the create call failed). -/
structure IotCreateResult where
  diags : List String
  data : softwarePackageData
  nextRead : Option IotReadFn
deriving DecidableEq, Repr

/-- Diagnostic added when creating the software package fails. -/
def softwarePackageCreateErr (e : GoError) : String :=
  "creating IoT Software Package: " ++ goErrMsg e

/-- Diagnostic added when reading the software package fails. -/
def softwarePackageReadErr (e : GoError) : String :=
  "reading IoT Software Package: " ++ goErrMsg e

/-- Diagnostic added when deleting the software package fails. -/
def softwarePackageDeleteErr (e : GoError) : String :=
  "deleting IoT Software Package: " ++ goErrMsg e

/-- resourceSoftwarePackageCreate: calls CreatePackage with the
description and package name (the client token is a fresh unique id, not
modelled); on failure the error becomes a diagnostic; on success the id
is set to the returned package name, package_arn is set from the
response, and control passes to resourcePolicyRead.  A nil output with a
nil error would be dereferenced. -/
def resourceSoftwarePackageCreate
    (create : String → String → Option CreatePackageOutput × Option GoError)
    (d : softwarePackageData) : Except String IotCreateResult :=
  match create d.description d.packageName with
  | (_, some err) =>
      .ok { diags := [softwarePackageCreateErr err], data := d, nextRead := none }
  | (none, none) => .error nilDereference
  | (some out, none) =>
      .ok { diags := []
            data := { d with id := out.packageName.getD "", packageArn := out.packageArn }
            nextRead := some IotReadFn.policyRead }

/-- resourceSoftwarePackageRead: calls GetPackage with the package name; a
ResourceNotFoundException clears the id (removing the resource), any
other error becomes a diagnostic; on success description, package_name
and package_arn are set from the output, which is dereferenced without a
nil check. -/
def resourceSoftwarePackageRead
    (get : String → Option GetPackageOutput × Option GoError)
    (d : softwarePackageData) : Except String (ReadResp softwarePackageData) :=
  match get d.packageName with
  | (_, some err) =>
    if isRNFE err then
      .ok { removed := true, diags := [], state := { d with id := "" } }
    else
      .ok { removed := false, diags := [softwarePackageReadErr err], state := d }
  | (none, none) => .error nilDereference
  | (some out, none) =>
      .ok { removed := false, diags := []
            state := { d with
              description := out.description.getD ""
              packageName := out.packageName.getD ""
              packageArn := out.packageArn } }

/-- resourceSoftwarePackageDelete: calls DeletePackage with the package
name (the client token is not modelled); a ResourceNotFoundException is
swallowed, any other error becomes a diagnostic. -/
def resourceSoftwarePackageDelete
    (del : String → Option GoError)
    (d : softwarePackageData) : List String :=
  match del d.packageName with
  | some err => if isRNFE err then [] else [softwarePackageDeleteErr err]
  | none => []

/-- FindSoftwarePackageByName from software_package.go: calls GetPackage
with the name; a ResourceNotFoundException is wrapped into
retry.NotFoundError whose LastRequest field receives the SDK output
value, exactly as the source writes it; other errors pass through; a nil
output reports an empty result, again built from the output value. -/
def FindSoftwarePackageByName
    (get : String → Option GetPackageOutput × Option GoError)
    (name : String) : Except GoError GetPackageOutput :=
  let output := (get name).1
  match (get name).2 with
  | some err =>
      if isRNFE err then .error (.notFound err (.iotGetPackageOutput output))
      else .error err
  | none =>
    match output with
    | none => .error (.emptyResult (.iotGetPackageOutput output))
    | some out => .ok out

/-! ## WAF regional web ACL helpers (package wafregional, appended to
src/internal/service/verifiedpermissions/identity_source.go) -/

/-- One entry of an action or override_action list: Go holds these as
interface values that may be nil, and otherwise are maps with a "type"
key. -/
structure ActionTypeMap where
  typ : String
deriving DecidableEq, Repr

/-- awstypes.WafAction. -/
structure WafAction where
  typ : String
deriving DecidableEq, Repr

/-- awstypes.WafOverrideAction. -/
structure WafOverrideAction where
  typ : String
deriving DecidableEq, Repr

/-- awstypes.WafRuleTypeGroup. -/
def wafRuleTypeGroup : String := "GROUP"

/-- awstypes.ActivatedRule, the fields this repository writes and reads. -/
structure ActivatedRule where
  action : Option WafAction
  overrideAction : Option WafOverrideAction
  priority : Option Int
  ruleId : Option String
  typ : String
deriving DecidableEq, Repr

/-- awstypes.WebACLUpdate: the change action plus the activated rule. -/
structure WebACLUpdate where
  action : String
  activatedRule : ActivatedRule
deriving DecidableEq, Repr

/-- The aclRule map handed to ExpandWebACLUpdate, with the keys the source
type-asserts. -/
structure WebACLRuleData where
  action : List (Option ActionTypeMap)
  overrideAction : List (Option ActionTypeMap)
  priority : Int
  ruleId : String
  typ : String
deriving DecidableEq, Repr

/-- ExpandAction from the wafregional helpers: nil for an empty list or a
nil first entry, otherwise a WafAction of the first entry type. -/
def ExpandAction : List (Option ActionTypeMap) → Option WafAction
  | [] => none
  | none :: _ => none
  | some m :: _ => some { typ := m.typ }

/-- expandOverrideAction from the wafregional helpers. -/
def expandOverrideAction : List (Option ActionTypeMap) → Option WafOverrideAction
  | [] => none
  | none :: _ => none
  | some m :: _ => some { typ := m.typ }

/-- The int32(...) conversion of Go: reduction of an int into the signed
32 bit range, wrapping on overflow. -/
def goInt32 (n : Int) : Int :=
  (n + 2 ^ 31) % 2 ^ 32 - 2 ^ 31

/-- ExpandWebACLUpdate from the wafregional helpers: a group-typed rule
receives the expanded override action and no action, any other type the
expanded action and no override action; rule id and type are copied and
priority passes through the wrapping int32 conversion of
aws.Int32(int32(...)). -/
def ExpandWebACLUpdate (updateAction : String) (aclRule : WebACLRuleData) : WebACLUpdate :=
  let rule : ActivatedRule :=
    if aclRule.typ = wafRuleTypeGroup then
      { action := none
        overrideAction := expandOverrideAction aclRule.overrideAction
        priority := some (goInt32 aclRule.priority)
        ruleId := some aclRule.ruleId
        typ := aclRule.typ }
    else
      { action := ExpandAction aclRule.action
        overrideAction := none
        priority := some (goInt32 aclRule.priority)
        ruleId := some aclRule.ruleId
        typ := aclRule.typ }
  { action := updateAction, activatedRule := rule }

/-- One element of the FlattenWebACLRules output: the map built per rule,
whose action and override_action keys are present only when set. -/
structure FlatWebACLRule where
  action : Option (List ActionTypeMap)
  overrideAction : Option (List ActionTypeMap)
  priority : Option Int
  ruleId : String
  typ : String
deriving DecidableEq, Repr

/-- The per-rule body of FlattenWebACLRules: a group-typed rule reads
OverrideAction.Type, any other reads Action.Type, both without a nil
check; rule_id is flattened with aws.ToString and priority and type are
copied. -/
def flattenWebACLRule (r : ActivatedRule) : Except String FlatWebACLRule :=
  if r.typ = wafRuleTypeGroup then
    match r.overrideAction with
    | none => .error nilDereference
    | some oa =>
        .ok { action := none, overrideAction := some [{ typ := oa.typ }]
              priority := r.priority, ruleId := r.ruleId.getD "", typ := r.typ }
  else
    match r.action with
    | none => .error nilDereference
    | some a =>
        .ok { action := some [{ typ := a.typ }], overrideAction := none
              priority := r.priority, ruleId := r.ruleId.getD "", typ := r.typ }

/-- FlattenWebACLRules from the wafregional helpers: one output map per
input rule, in order. -/
def FlattenWebACLRules : List ActivatedRule → Except String (List FlatWebACLRule)
  | [] => .ok []
  | r :: rs =>
    match flattenWebACLRule r with
    | .error e => .error e
    | .ok m =>
      match FlattenWebACLRules rs with
      | .error e => .error e
      | .ok out => .ok (m :: out)

/-! ## Claim theorems -/

/-- C7: Update is a no-op for aws_ssoadmin_application_grant and
aws_ssoadmin_application_authentication_method: for every prior state and
plan the method returns the response exactly as the framework seeded it,
so no vendor API call is made, no diagnostics are added, and the response
state is left untouched. -/
theorem update_noop_grant_and_authentication_method :
    ∀ (reqG : UpdateRequest resourceApplicationGrantData)
      (respG : UpdateResponse resourceApplicationGrantData)
      (reqA : UpdateRequest resourceApplicationAuthenticationMethodData)
      (respA : UpdateResponse resourceApplicationAuthenticationMethodData),
    resourceApplicationGrantUpdate reqG respG = respG
    ∧ resourceApplicationAuthenticationMethodUpdate reqA respA = respA
    ∧ (resourceApplicationGrantUpdate reqG (initUpdateResponse reqG.plan)).apiCalled = false
    ∧ (resourceApplicationGrantUpdate reqG (initUpdateResponse reqG.plan)).diags = []
    ∧ (resourceApplicationGrantUpdate reqG (initUpdateResponse reqG.plan)).state = reqG.plan
    ∧ (resourceApplicationAuthenticationMethodUpdate reqA
        (initUpdateResponse reqA.plan)).apiCalled = false
    ∧ (resourceApplicationAuthenticationMethodUpdate reqA
        (initUpdateResponse reqA.plan)).diags = []
    ∧ (resourceApplicationAuthenticationMethodUpdate reqA
        (initUpdateResponse reqA.plan)).state = reqA.plan := by
  intro reqG respG reqA respA
  exact ⟨rfl, rfl, rfl, rfl, rfl, rfl, rfl, rfl⟩

/-- C3: a successful identity source read run on an output whose identity
source id and policy store id differ.  The read stores the identity source
id into policy_store_id, so the state does not carry the policy store id
of the response: the claim that every state field equals the corresponding
response field fails on policy_store_id. -/
theorem identitySourceRead_policyStoreId_bug :
    resourceIdentitySourceRead
        (fun _ => (some { configuration := none
                          identitySourceId := some "is-123"
                          policyStoreId := some "ps-456"
                          principalEntityType := some "AWS::Cognito" }, none))
        { configuration := none, id := FwString.value "is-123"
          policyStoreId := FwString.value "ps-456", principalEntityType := FwString.null }
      = { removed := false, diags := []
          state := { configuration := none, id := FwString.value "is-123"
                     policyStoreId := FwString.value "is-123"
                     principalEntityType := FwString.value "AWS::Cognito" } }
    ∧ FwString.value "is-123" ≠ FwString.value "ps-456" := by
  exact ⟨rfl, by decide⟩

/-- C8: a successful software package create run.  The id and package_arn
are set from the response as claimed, but the handler then invokes the
policy read helper, not the software package read, so the remaining
package fields are not refreshed from GetPackage. -/
theorem softwarePackageCreate_policyRead_bug :
    resourceSoftwarePackageCreate
        (fun _ _ => (some { packageArn := some "arn:pkg1", packageName := some "pkg1" }, none))
        { id := "", description := "desc", packageName := "pkg1", packageArn := none }
      = .ok { diags := []
              data := { id := "pkg1", description := "desc", packageName := "pkg1"
                        packageArn := some "arn:pkg1" }
              nextRead := some IotReadFn.policyRead }
    ∧ IotReadFn.policyRead ≠ IotReadFn.softwarePackageRead := by
  exact ⟨rfl, by decide⟩

/-- C1 counterexample: when GetPackage fails with
ResourceNotFoundException, FindSoftwarePackageByName wraps the SDK output
value (nil at that point) in LastRequest, not the request, so the
returned absence signal does not wrap the request as claimed. -/
theorem findSoftwarePackage_lastRequest_counterexample :
    FindSoftwarePackageByName
        (fun _ => (none, some (GoError.resourceNotFound "nope"))) "pkg1"
      = .error (.notFound (.resourceNotFound "nope") (.iotGetPackageOutput none))
    ∧ GoReq.iotGetPackageOutput none ≠ GoReq.iotGetPackage "pkg1" := by
  exact ⟨rfl, by decide⟩

/-- C2 counterexample: a valid configuration whose single element has
exactly the refresh_token sub-block non-null expands to the refresh token
grant, but flattening that grant yields the element with all four
sub-blocks null, not the original configuration, so the expand/flatten
pair is not the identity there. -/
theorem refreshToken_roundtrip_counterexample :
    expandGrant [{ authorizationCode := none, jwtBearer := none
                   refreshToken := some [()], tokenExchange := none }]
      = .ok (some Grant.refreshToken)
    ∧ flattenGrant (some Grant.refreshToken)
      = some [{ authorizationCode := none, jwtBearer := none
                refreshToken := none, tokenExchange := none }]
    ∧ (some [{ authorizationCode := none, jwtBearer := none
               refreshToken := none, tokenExchange := none }] :
          Option (List resourceGrantData))
      ≠ some [{ authorizationCode := none, jwtBearer := none
                refreshToken := some [()], tokenExchange := none }] := by
  refine ⟨rfl, rfl, by decide⟩

/-- C6 counterexample: on a non-empty configuration list whose first
element has a non-null but empty authorization_code sub-block, expandGrant
does not return the authorization code member; the source dereferences the
nil pointer expandApplicationCode returns for the empty list. -/
theorem expandGrant_empty_authorizationCode_counterexample :
    expandGrant [{ authorizationCode := some [], jwtBearer := none
                   refreshToken := none, tokenExchange := none }]
      = .error nilDereference
    ∧ (expandGrant [{ authorizationCode := some [], jwtBearer := none
                      refreshToken := none, tokenExchange := none }]).isOk = false := by
  exact ⟨rfl, rfl⟩

/-- C10 counterexample: a group-typed rule whose override_action list is
empty is expanded to an activated rule whose OverrideAction is nil, so
OverrideAction is not non-nil exactly on group-typed rules as claimed. -/
theorem expandWebACLUpdate_group_counterexample :
    (ExpandWebACLUpdate "INSERT"
        { action := [], overrideAction := [], priority := 1
          ruleId := "r1", typ := "GROUP" }).activatedRule
      = { action := none, overrideAction := none, priority := some 1
          ruleId := some "r1", typ := "GROUP" }
    ∧ "GROUP" = wafRuleTypeGroup
    ∧ (none : Option WafOverrideAction).isSome = false := by
  exact ⟨rfl, rfl, rfl⟩

/-- C4: a grant created from application ARN "arn:app1" and grant type
"code1" gets the composite id "arn:app1,code1"; the subsequent successful
read re-expands State.ID.String(), the quoted debug form of the id, so
application_arn receives a leading double quote and grant_type a trailing
one, not the values the id was built from. -/
theorem applicationGrantRead_quoted_id_bug :
    resourceApplicationGrantCreate (fun _ _ _ => none)
        { applicationARN := FwString.value "arn:app1", id := FwString.null
          grant := some [{ authorizationCode := none, jwtBearer := none
                           refreshToken := some [()], tokenExchange := none }]
          grantType := FwString.value "code1" }
      = .ok { diags := []
              state := some
                { applicationARN := FwString.value "arn:app1"
                  id := FwString.value "arn:app1,code1"
                  grant := some [{ authorizationCode := none, jwtBearer := none
                                   refreshToken := some [()], tokenExchange := none }]
                  grantType := FwString.value "code1" } }
    ∧ resourceApplicationGrantRead
        (fun _ _ => (some { grant := some Grant.refreshToken }, none))
        { applicationARN := FwString.value "arn:app1"
          id := FwString.value "arn:app1,code1"
          grant := some [{ authorizationCode := none, jwtBearer := none
                           refreshToken := some [()], tokenExchange := none }]
          grantType := FwString.value "code1" }
      = .ok { removed := false, diags := []
              state :=
                { applicationARN := FwString.value "\"arn:app1"
                  id := FwString.value "arn:app1,code1"
                  grant := some [{ authorizationCode := none, jwtBearer := none
                                   refreshToken := none, tokenExchange := none }]
                  grantType := FwString.value "code1\"" } }
    ∧ FwString.value "\"arn:app1" ≠ FwString.value "arn:app1"
    ∧ FwString.value "code1\"" ≠ FwString.value "code1" := by
  refine ⟨rfl, rfl, by decide, by decide⟩

/-- C9: every one of the four deletes swallows a vendor
ResourceNotFoundException, succeeding with no diagnostics, and turns any
other vendor error into exactly one error diagnostic. -/
theorem delete_swallows_resourceNotFound :
    ∀ (gdel : String → String → Option GoError) (gstate : resourceApplicationGrantData)
      (adel : String → String → Option GoError)
      (astate : resourceApplicationAuthenticationMethodData)
      (idel : Option String → Option GoError) (istate : resourceIdentitySourceData)
      (pdel : String → Option GoError) (pdata : softwarePackageData),
    (∀ m, gdel gstate.applicationARN.valueString gstate.grantType.valueString
        = some (.resourceNotFound m) →
      resourceApplicationGrantDelete gdel gstate = [])
    ∧ (∀ e, gdel gstate.applicationARN.valueString gstate.grantType.valueString = some e →
        isRNFE e = false →
      resourceApplicationGrantDelete gdel gstate = [applicationGrantDeleteErr e])
    ∧ (∀ parts m, expandResourceId astate.id.valueString
          applicationAuthenticationMethodIDPartCount false = .ok parts →
        adel (goIndex parts 0) (goIndex parts 1) = some (.resourceNotFound m) →
      resourceApplicationAuthenticationMethodDelete adel astate = [])
    ∧ (∀ parts e, expandResourceId astate.id.valueString
          applicationAuthenticationMethodIDPartCount false = .ok parts →
        adel (goIndex parts 0) (goIndex parts 1) = some e → isRNFE e = false →
      resourceApplicationAuthenticationMethodDelete adel astate
        = [authenticationMethodDeleteErr e])
    ∧ (∀ m, idel (stringFromFramework istate.id) = some (.resourceNotFound m) →
      resourceIdentitySourceDelete idel istate = [])
    ∧ (∀ e, idel (stringFromFramework istate.id) = some e → isRNFE e = false →
      resourceIdentitySourceDelete idel istate = [identitySourceDeleteErr e])
    ∧ (∀ m, pdel pdata.packageName = some (.resourceNotFound m) →
      resourceSoftwarePackageDelete pdel pdata = [])
    ∧ (∀ e, pdel pdata.packageName = some e → isRNFE e = false →
      resourceSoftwarePackageDelete pdel pdata = [softwarePackageDeleteErr e]) := by
  intro gdel gstate adel astate idel istate pdel pdata
  refine ⟨?_, ?_, ?_, ?_, ?_, ?_, ?_, ?_⟩
  · intro m h; simp [resourceApplicationGrantDelete, h, isRNFE]
  · intro e h hr; simp [resourceApplicationGrantDelete, h, hr]
  · intro parts m hp h
    simp [resourceApplicationAuthenticationMethodDelete, hp, h, isRNFE]
  · intro parts e hp h hr
    simp [resourceApplicationAuthenticationMethodDelete, hp, h, hr]
  · intro m h; simp [resourceIdentitySourceDelete, h, isRNFE]
  · intro e h hr; simp [resourceIdentitySourceDelete, h, hr]
  · intro m h; simp [resourceSoftwarePackageDelete, h, isRNFE]
  · intro e h hr; simp [resourceSoftwarePackageDelete, h, hr]

/-- Witness for the C9 theorem: a delete call answering
ResourceNotFoundException yields no diagnostics for the grant resource. -/
theorem delete_swallows_resourceNotFound_witness :
    resourceApplicationGrantDelete (fun _ _ => some (GoError.resourceNotFound "gone"))
        { applicationARN := FwString.value "a", id := FwString.value "a,b"
          grant := none, grantType := FwString.value "b" }
      = [] := by
  exact (delete_swallows_resourceNotFound
      (fun _ _ => some (GoError.resourceNotFound "gone"))
      { applicationARN := FwString.value "a", id := FwString.value "a,b"
        grant := none, grantType := FwString.value "b" }
      (fun _ _ => none)
      { applicationARN := FwString.null, authenticationMethod := none
        authenticationMethodType := FwString.null, id := FwString.null }
      (fun _ => none)
      { configuration := none, id := FwString.null
        policyStoreId := FwString.null, principalEntityType := FwString.null }
      (fun _ => none)
      { id := "", description := "", packageName := "", packageArn := none }).1
    "gone" rfl

/-- C1 (amended): each finder returns the retry.NotFoundError absence
signal exactly when its vendor SDK call fails with
ResourceNotFoundException, wrapping the last error, and passes any other
SDK error through unchanged; the three framework finders also wrap the
request, while FindSoftwarePackageByName stores the SDK output value in
LastRequest instead of the request.  The converse directions assume the
client produces only vendor SDK errors. -/
theorem finders_absence_signal_amended :
    ∀ (gconn : GrantConn) (gid : String)
      (iconn : IdentitySourceConn) (iid : String)
      (aconn : AuthMethodConn) (aid : String)
      (pget : String → Option GetPackageOutput × Option GoError) (name : String),
    (∀ parts m, expandResourceId gid applicationGrantIDPartCount false = .ok parts →
        (gconn (goIndex parts 0) (goIndex parts 1)).2 = some (GoError.resourceNotFound m) →
        findApplicationGrantByID gconn gid
          = .error (.notFound (.resourceNotFound m)
              (.appGrant (goIndex parts 0) (goIndex parts 1))))
    ∧ (∀ parts e, expandResourceId gid applicationGrantIDPartCount false = .ok parts →
        (gconn (goIndex parts 0) (goIndex parts 1)).2 = some e → isRNFE e = false →
        findApplicationGrantByID gconn gid = .error e)
    ∧ ((∀ a b e, (gconn a b).2 = some e → isSdkError e = true) →
        ∀ e r, findApplicationGrantByID gconn gid = .error (.notFound e r) →
        ∃ parts m, expandResourceId gid applicationGrantIDPartCount false = .ok parts
          ∧ (gconn (goIndex parts 0) (goIndex parts 1)).2 = some (.resourceNotFound m)
          ∧ e = .resourceNotFound m
          ∧ r = .appGrant (goIndex parts 0) (goIndex parts 1))
    ∧ (∀ m, (iconn iid).2 = some (.resourceNotFound m) →
        findIdentitySourceByID iconn iid
          = .error (.notFound (.resourceNotFound m) (.identitySource iid)))
    ∧ (∀ e, (iconn iid).2 = some e → isRNFE e = false →
        findIdentitySourceByID iconn iid = .error e)
    ∧ ((∀ i e, (iconn i).2 = some e → isSdkError e = true) →
        ∀ e r, findIdentitySourceByID iconn iid = .error (.notFound e r) →
        ∃ m, (iconn iid).2 = some (.resourceNotFound m)
          ∧ e = .resourceNotFound m ∧ r = .identitySource iid)
    ∧ (∀ parts m, expandResourceId aid applicationAuthenticationMethodIDPartCount false
          = .ok parts →
        (aconn (goIndex parts 0) (goIndex parts 1)).2 = some (GoError.resourceNotFound m) →
        findApplicationAuthenticationMethodByMethodTypeAndApplicationARN aconn aid
          = .error (.notFound (.resourceNotFound m)
              (.appAuthMethod (goIndex parts 0) (goIndex parts 1))))
    ∧ (∀ parts e, expandResourceId aid applicationAuthenticationMethodIDPartCount false
          = .ok parts →
        (aconn (goIndex parts 0) (goIndex parts 1)).2 = some e → isRNFE e = false →
        findApplicationAuthenticationMethodByMethodTypeAndApplicationARN aconn aid = .error e)
    ∧ ((∀ a b e, (aconn a b).2 = some e → isSdkError e = true) →
        ∀ e r, findApplicationAuthenticationMethodByMethodTypeAndApplicationARN aconn aid
          = .error (.notFound e r) →
        ∃ parts m, expandResourceId aid applicationAuthenticationMethodIDPartCount false
            = .ok parts
          ∧ (aconn (goIndex parts 0) (goIndex parts 1)).2 = some (.resourceNotFound m)
          ∧ e = .resourceNotFound m
          ∧ r = .appAuthMethod (goIndex parts 0) (goIndex parts 1))
    ∧ (∀ m, (pget name).2 = some (.resourceNotFound m) →
        FindSoftwarePackageByName pget name
          = .error (.notFound (.resourceNotFound m) (.iotGetPackageOutput (pget name).1)))
    ∧ (∀ e, (pget name).2 = some e → isRNFE e = false →
        FindSoftwarePackageByName pget name = .error e)
    ∧ ((∀ n e, (pget n).2 = some e → isSdkError e = true) →
        ∀ e r, FindSoftwarePackageByName pget name = .error (.notFound e r) →
        ∃ m, (pget name).2 = some (.resourceNotFound m)
          ∧ e = .resourceNotFound m ∧ r = .iotGetPackageOutput (pget name).1) := by
  intro gconn gid iconn iid aconn aid pget name
  refine ⟨?_, ?_, ?_, ?_, ?_, ?_, ?_, ?_, ?_, ?_, ?_, ?_⟩
  · intro parts m hp hc
    simp [findApplicationGrantByID, hp, hc, isRNFE]
  · intro parts e hp hc hr
    simp [findApplicationGrantByID, hp, hc, hr]
  · intro hsdk e r hfind
    rcases h1 : expandResourceId gid applicationGrantIDPartCount false with msg | parts
    · simp [findApplicationGrantByID, h1] at hfind
    · rcases h2 : (gconn (goIndex parts 0) (goIndex parts 1)).2 with _ | err
      · rcases h3 : (gconn (goIndex parts 0) (goIndex parts 1)).1 with _ | out
        · simp [findApplicationGrantByID, h1, h2, h3] at hfind
        · simp [findApplicationGrantByID, h1, h2, h3] at hfind
      · have hs := hsdk _ _ _ h2
        cases err with
        | resourceNotFound m =>
          simp [findApplicationGrantByID, h1, h2, isRNFE] at hfind
          exact ⟨parts, m, rfl, h2, hfind.1.symm, hfind.2.symm⟩
        | goError m => simp [findApplicationGrantByID, h1, h2, isRNFE] at hfind
        | notFound le lr => simp [isSdkError] at hs
        | emptyResult q => simp [isSdkError] at hs
  · intro m hc
    simp [findIdentitySourceByID, hc, isRNFE]
  · intro e hc hr
    simp [findIdentitySourceByID, hc, hr]
  · intro hsdk e r hfind
    rcases h2 : (iconn iid).2 with _ | err
    · rcases h3 : (iconn iid).1 with _ | out
      · simp [findIdentitySourceByID, h2, h3] at hfind
      · rcases h4 : out.identitySourceId with _ | v
        · simp [findIdentitySourceByID, h2, h3, h4] at hfind
        · simp [findIdentitySourceByID, h2, h3, h4] at hfind
    · have hs := hsdk _ _ h2
      cases err with
      | resourceNotFound m =>
        simp [findIdentitySourceByID, h2, isRNFE] at hfind
        exact ⟨m, rfl, hfind.1.symm, hfind.2.symm⟩
      | goError m => simp [findIdentitySourceByID, h2, isRNFE] at hfind
      | notFound le lr => simp [isSdkError] at hs
      | emptyResult q => simp [isSdkError] at hs
  · intro parts m hp hc
    simp [findApplicationAuthenticationMethodByMethodTypeAndApplicationARN, hp, hc, isRNFE]
  · intro parts e hp hc hr
    simp [findApplicationAuthenticationMethodByMethodTypeAndApplicationARN, hp, hc, hr]
  · intro hsdk e r hfind
    rcases h1 : expandResourceId aid applicationAuthenticationMethodIDPartCount false
      with msg | parts
    · simp [findApplicationAuthenticationMethodByMethodTypeAndApplicationARN, h1] at hfind
    · rcases h2 : (aconn (goIndex parts 0) (goIndex parts 1)).2 with _ | err
      · rcases h3 : (aconn (goIndex parts 0) (goIndex parts 1)).1 with _ | out
        · simp [findApplicationAuthenticationMethodByMethodTypeAndApplicationARN,
            h1, h2, h3] at hfind
        · simp [findApplicationAuthenticationMethodByMethodTypeAndApplicationARN,
            h1, h2, h3] at hfind
      · have hs := hsdk _ _ _ h2
        cases err with
        | resourceNotFound m =>
          simp [findApplicationAuthenticationMethodByMethodTypeAndApplicationARN,
            h1, h2, isRNFE] at hfind
          exact ⟨parts, m, rfl, h2, hfind.1.symm, hfind.2.symm⟩
        | goError m =>
          simp [findApplicationAuthenticationMethodByMethodTypeAndApplicationARN,
            h1, h2, isRNFE] at hfind
        | notFound le lr => simp [isSdkError] at hs
        | emptyResult q => simp [isSdkError] at hs
  · intro m hc
    simp [FindSoftwarePackageByName, hc, isRNFE]
  · intro e hc hr
    simp [FindSoftwarePackageByName, hc, hr]
  · intro hsdk e r hfind
    rcases h2 : (pget name).2 with _ | err
    · rcases h3 : (pget name).1 with _ | out
      · simp [FindSoftwarePackageByName, h2, h3] at hfind
      · simp [FindSoftwarePackageByName, h2, h3] at hfind
    · have hs := hsdk _ _ h2
      cases err with
      | resourceNotFound m =>
        simp [FindSoftwarePackageByName, h2, isRNFE] at hfind
        exact ⟨m, rfl, hfind.1.symm, hfind.2.symm⟩
      | goError m => simp [FindSoftwarePackageByName, h2, isRNFE] at hfind
      | notFound le lr => simp [isSdkError] at hs
      | emptyResult q => simp [isSdkError] at hs

/-- Witness for the amended C1 theorem: a grant client failing with
ResourceNotFoundException makes the grant finder return the
retry.NotFoundError wrapping that error and the request. -/
theorem finders_absence_signal_amended_witness :
    findApplicationGrantByID (fun _ _ => (none, some (GoError.resourceNotFound "gone"))) "a,b"
      = .error (.notFound (.resourceNotFound "gone") (.appGrant "a" "b")) := by
  have h := (finders_absence_signal_amended
      (fun _ _ => (none, some (GoError.resourceNotFound "gone"))) "a,b"
      (fun _ => (none, none)) "" (fun _ _ => (none, none)) ""
      (fun _ => (none, none)) "").1 ["a", "b"] "gone" rfl rfl
  exact h

/-- Flattening the expansion of a string list attribute restores it,
unless the attribute was a known empty list, which flattening turns back
into null. -/
theorem flatten_expand_stringList (r : Option (List String)) (h : r ≠ some []) :
    flattenFrameworkStringValueList (expandFrameworkStringValueList r) = r := by
  cases r with
  | none => rfl
  | some l =>
    cases l with
    | nil => exact absurd rfl h
    | cons x xs => rfl

/-- Round trip of a single authorized token issuer element. -/
theorem issuer_roundtrip (i : resourceGrantJwtBearerAuthorizedTokenIssuerData)
    (h : i.authorizedAudiences ≠ some []) :
    ({ authorizedAudiences :=
         flattenFrameworkStringValueList (expandFrameworkStringValueList i.authorizedAudiences),
       trustedTokenIssuerArn :=
         stringToFramework (stringFromFramework i.trustedTokenIssuerArn) } :
      resourceGrantJwtBearerAuthorizedTokenIssuerData) = i := by
  obtain ⟨aa, ta⟩ := i
  simp only [resourceGrantJwtBearerAuthorizedTokenIssuerData.mk.injEq]
  constructor
  · exact flatten_expand_stringList aa h
  · cases ta <;> rfl

/-- Round trip of a mapped authorized token issuer list, elementwise. -/
theorem issuers_map_roundtrip (l : List resourceGrantJwtBearerAuthorizedTokenIssuerData)
    (h : ∀ i ∈ l, i.authorizedAudiences ≠ some []) :
    (l.map fun tokenIssuer =>
        ({ authorizedAudiences := expandFrameworkStringValueList tokenIssuer.authorizedAudiences,
           trustedTokenIssuerArn := stringFromFramework tokenIssuer.trustedTokenIssuerArn } :
          AuthorizedTokenIssuer)).map
      (fun object =>
        ({ authorizedAudiences := flattenFrameworkStringValueList object.authorizedAudiences,
           trustedTokenIssuerArn := stringToFramework object.trustedTokenIssuerArn } :
          resourceGrantJwtBearerAuthorizedTokenIssuerData)) = l := by
  induction l with
  | nil => rfl
  | cons x xs ih =>
    simp only [List.map_cons, List.cons.injEq]
    constructor
    · exact issuer_roundtrip x (h x (by simp))
    · exact ih (fun i hi => h i (by simp [hi]))

/-- Round trip of a non-empty authorized token issuer list. -/
theorem issuers_roundtrip (l : List resourceGrantJwtBearerAuthorizedTokenIssuerData)
    (hne : l ≠ [])
    (h : ∀ i ∈ l, i.authorizedAudiences ≠ some []) :
    flattenJwtBearerAuthorizedTokenIssuers (expandAuthorizedTokenIssuers l) = some l := by
  cases l with
  | nil => exact absurd rfl hne
  | cons x xs =>
    simp only [expandAuthorizedTokenIssuers, flattenJwtBearerAuthorizedTokenIssuers,
      Option.some.injEq]
    exact issuers_map_roundtrip (x :: xs) h

/-- C2 (amended): for a configuration list of exactly one element with
exactly one non-null sub-block, expand followed by flatten restores the
configuration when that sub-block is authorization_code or jwt_bearer and
is non-degenerate (a single element, no known-empty nested list); for the
refresh_token and token_exchange sub-blocks, flattening the expanded
grant instead yields the element with all four sub-blocks null, so the
pair is not one-to-one there. -/
theorem expand_flatten_roundtrip_amended :
    ∀ (g : resourceGrantData),
    (∀ a, g = { authorizationCode := some [a], jwtBearer := none
                refreshToken := none, tokenExchange := none } →
       a.redirectUris ≠ some [] →
       expandGrant [g] = .ok (some (.authorizationCode
           { redirectUris := expandFrameworkStringValueList a.redirectUris }))
       ∧ flattenGrant (some (.authorizationCode
           { redirectUris := expandFrameworkStringValueList a.redirectUris })) = some [g])
    ∧ (∀ j, g = { authorizationCode := none, jwtBearer := some [j]
                  refreshToken := none, tokenExchange := none } →
       j.authorizedTokenIssuers ≠ some [] →
       (∀ i ∈ j.authorizedTokenIssuers.getD [], i.authorizedAudiences ≠ some []) →
       expandGrant [g] = .ok (some (.jwtBearer
           { authorizedTokenIssuers :=
               expandAuthorizedTokenIssuers (j.authorizedTokenIssuers.getD []) }))
       ∧ flattenGrant (some (.jwtBearer
           { authorizedTokenIssuers :=
               expandAuthorizedTokenIssuers (j.authorizedTokenIssuers.getD []) }))
         = some [g])
    ∧ (∀ rl, g = { authorizationCode := none, jwtBearer := none
                   refreshToken := some rl, tokenExchange := none } →
       expandGrant [g] = .ok (some Grant.refreshToken)
       ∧ flattenGrant (some Grant.refreshToken)
         = some [{ authorizationCode := none, jwtBearer := none
                   refreshToken := none, tokenExchange := none }])
    ∧ (∀ tl, g = { authorizationCode := none, jwtBearer := none
                   refreshToken := none, tokenExchange := some tl } →
       expandGrant [g] = .ok (some Grant.tokenExchange)
       ∧ flattenGrant (some Grant.tokenExchange)
         = some [{ authorizationCode := none, jwtBearer := none
                   refreshToken := none, tokenExchange := none }]) := by
  intro g
  refine ⟨?_, ?_, ?_, ?_⟩
  · intro a hg hr
    subst hg
    refine ⟨rfl, ?_⟩
    simp only [flattenGrant, flattenAuthorizationCode]
    rw [flatten_expand_stringList _ hr]
  · intro j hg hne hforall
    subst hg
    refine ⟨rfl, ?_⟩
    simp only [flattenGrant, flattenJwtBearer]
    obtain ⟨tis⟩ := j
    simp only at hne hforall ⊢
    cases tis with
    | none => rfl
    | some l =>
      cases l with
      | nil => exact absurd rfl hne
      | cons x xs =>
        simp only [Option.getD_some] at hforall ⊢
        rw [issuers_roundtrip (x :: xs) (by simp) hforall]
  · intro rl hg
    subst hg
    exact ⟨rfl, rfl⟩
  · intro tl hg
    subst hg
    exact ⟨rfl, rfl⟩

/-- Witness for the amended C2 theorem: the authorization code round trip
at a one-element redirect uri list. -/
theorem expand_flatten_roundtrip_amended_witness :
    expandGrant [{ authorizationCode := some [{ redirectUris := some ["u"] }]
                   jwtBearer := none, refreshToken := none, tokenExchange := none }]
      = .ok (some (.authorizationCode { redirectUris := some ["u"] }))
    ∧ flattenGrant (some (.authorizationCode { redirectUris := some ["u"] }))
      = some [{ authorizationCode := some [{ redirectUris := some ["u"] }]
                jwtBearer := none, refreshToken := none, tokenExchange := none }] := by
  exact (expand_flatten_roundtrip_amended
      { authorizationCode := some [{ redirectUris := some ["u"] }]
        jwtBearer := none, refreshToken := none, tokenExchange := none }).1
    { redirectUris := some ["u"] } rfl (by decide)

/-- C6 (amended): on a non-empty grant configuration list, expandGrant
returns the union member of the first non-null sub-block of the first
element, checked in the order authorization_code, jwt_bearer,
refresh_token, token_exchange — the authorization code member carrying
the expanded redirect uris, the jwt bearer member the expanded authorized
token issuers, and the refresh token and token exchange members their
empty grant structs — provided a non-null authorization_code or
jwt_bearer sub-block list is itself non-empty (an empty one makes the
source dereference a nil pointer); and it returns nil for an empty list
or when all four sub-blocks are null. -/
theorem expandGrant_first_nonnull_amended :
    ∀ (tfObj : resourceGrantData) (rest : List resourceGrantData),
    expandGrant [] = .ok none
    ∧ (∀ a l2, tfObj.authorizationCode = some (a :: l2) →
        expandGrant (tfObj :: rest)
          = .ok (some (.authorizationCode
              { redirectUris := expandFrameworkStringValueList a.redirectUris })))
    ∧ (∀ j l2, tfObj.authorizationCode = none → tfObj.jwtBearer = some (j :: l2) →
        expandGrant (tfObj :: rest)
          = .ok (some (.jwtBearer
              { authorizedTokenIssuers :=
                  expandAuthorizedTokenIssuers (j.authorizedTokenIssuers.getD []) })))
    ∧ (∀ rl, tfObj.authorizationCode = none → tfObj.jwtBearer = none →
        tfObj.refreshToken = some rl →
        expandGrant (tfObj :: rest) = .ok (some .refreshToken))
    ∧ (∀ tl, tfObj.authorizationCode = none → tfObj.jwtBearer = none →
        tfObj.refreshToken = none → tfObj.tokenExchange = some tl →
        expandGrant (tfObj :: rest) = .ok (some .tokenExchange))
    ∧ (tfObj.authorizationCode = none → tfObj.jwtBearer = none →
        tfObj.refreshToken = none → tfObj.tokenExchange = none →
        expandGrant (tfObj :: rest) = .ok none) := by
  intro tfObj rest
  refine ⟨rfl, ?_, ?_, ?_, ?_, ?_⟩
  · intro a l2 hac
    simp [expandGrant, hac, expandApplicationCode]
  · intro j l2 hac hjb
    simp [expandGrant, hac, hjb, expandJwtBearer]
  · intro rl hac hjb hrt
    simp [expandGrant, hac, hjb, hrt]
  · intro tl hac hjb hrt htx
    simp [expandGrant, hac, hjb, hrt, htx]
  · intro hac hjb hrt htx
    simp [expandGrant, hac, hjb, hrt, htx]

/-- Witness for the amended C6 theorem: a configuration whose first
element carries a refresh_token sub-block expands to the refresh token
member. -/
theorem expandGrant_first_nonnull_amended_witness :
    expandGrant [{ authorizationCode := none, jwtBearer := none
                   refreshToken := some [()], tokenExchange := none }]
      = .ok (some Grant.refreshToken) := by
  exact ((expandGrant_first_nonnull_amended
      { authorizationCode := none, jwtBearer := none
        refreshToken := some [()], tokenExchange := none } []).2.2.2.1) [()] rfl rfl rfl

/-- The per-element property the amended C10 claim asserts of a flattened
web ACL rule against its input rule. -/
def flatRuleSpec (x : ActivatedRule) (o : FlatWebACLRule) : Prop :=
  (o.overrideAction.isSome = true ↔ x.typ = wafRuleTypeGroup)
  ∧ (o.action.isSome = true ↔ x.typ ≠ wafRuleTypeGroup)
  ∧ o.typ = x.typ ∧ o.ruleId = x.ruleId.getD "" ∧ o.priority = x.priority

/-- FlattenWebACLRules succeeds on well-formed rules (group rules carry an
override action, others an action) and satisfies flatRuleSpec
elementwise. -/
theorem flattenWebACLRules_wf (ts : List ActivatedRule)
    (hwf : ∀ x ∈ ts, (x.typ = wafRuleTypeGroup → x.overrideAction.isSome = true)
      ∧ (x.typ ≠ wafRuleTypeGroup → x.action.isSome = true)) :
    ∃ out, FlattenWebACLRules ts = .ok out ∧ List.Forall₂ flatRuleSpec ts out := by
  induction ts with
  | nil => exact ⟨[], rfl, List.Forall₂.nil⟩
  | cons x xs ih =>
    have hx := hwf x (by simp)
    obtain ⟨out, hout, hfa⟩ := ih (fun y hy => hwf y (by simp [hy]))
    by_cases hg : x.typ = wafRuleTypeGroup
    · obtain ⟨oa, hoa⟩ := Option.isSome_iff_exists.mp (hx.1 hg)
      refine ⟨{ action := none, overrideAction := some [{ typ := oa.typ }]
                priority := x.priority, ruleId := x.ruleId.getD ""
                typ := x.typ } :: out, ?_, ?_⟩
      · simp [FlattenWebACLRules, flattenWebACLRule, hg, hoa, hout]
      · exact List.Forall₂.cons ⟨by simp [hg], by simp [hg], rfl, rfl, rfl⟩ hfa
    · obtain ⟨a, ha⟩ := Option.isSome_iff_exists.mp (hx.2 hg)
      refine ⟨{ action := some [{ typ := a.typ }], overrideAction := none
                priority := x.priority, ruleId := x.ruleId.getD ""
                typ := x.typ } :: out, ?_, ?_⟩
      · simp [FlattenWebACLRules, flattenWebACLRule, hg, ha, hout]
      · exact List.Forall₂.cons ⟨by simp [hg], by simp [hg], rfl, rfl, rfl⟩ hfa

/-- C10 (amended): ExpandWebACLUpdate builds an activated rule with the
override action set and no action exactly on group-typed rules and the
action set with no override action otherwise, provided the corresponding
configured action list is non-empty with a non-nil first entry (with an
empty list the group branch leaves OverrideAction nil as well); and on
rules whose corresponding pointer is set, FlattenWebACLRules emits, per
input rule and in order, a map holding the override_action key exactly
for group-typed rules and the action key otherwise, preserving rule id,
type and priority; the expanded priority is the int32-wrapped input
priority. -/
theorem webACL_action_override_amended :
    ∀ (updateAction : String) (aclRule : WebACLRuleData) (ts : List ActivatedRule),
    (∀ m l2, aclRule.typ = wafRuleTypeGroup → aclRule.overrideAction = some m :: l2 →
       (ExpandWebACLUpdate updateAction aclRule).activatedRule
         = { action := none, overrideAction := some { typ := m.typ }
             priority := some (goInt32 aclRule.priority), ruleId := some aclRule.ruleId
             typ := aclRule.typ })
    ∧ (∀ m l2, aclRule.typ ≠ wafRuleTypeGroup → aclRule.action = some m :: l2 →
       (ExpandWebACLUpdate updateAction aclRule).activatedRule
         = { action := some { typ := m.typ }, overrideAction := none
             priority := some (goInt32 aclRule.priority), ruleId := some aclRule.ruleId
             typ := aclRule.typ })
    ∧ ((ExpandWebACLUpdate updateAction aclRule).activatedRule.overrideAction.isSome = true →
        aclRule.typ = wafRuleTypeGroup)
    ∧ ((ExpandWebACLUpdate updateAction aclRule).activatedRule.action.isSome = true →
        aclRule.typ ≠ wafRuleTypeGroup)
    ∧ ((∀ x ∈ ts, (x.typ = wafRuleTypeGroup → x.overrideAction.isSome = true)
          ∧ (x.typ ≠ wafRuleTypeGroup → x.action.isSome = true)) →
       ∃ out, FlattenWebACLRules ts = .ok out ∧ List.Forall₂ flatRuleSpec ts out) := by
  intro updateAction aclRule ts
  refine ⟨?_, ?_, ?_, ?_, fun hwf => flattenWebACLRules_wf ts hwf⟩
  · intro m l2 ht ho
    simp [ExpandWebACLUpdate, ht, ho, expandOverrideAction]
  · intro m l2 ht ho
    simp [ExpandWebACLUpdate, ht, ho, ExpandAction]
  · intro h
    by_cases htyp : aclRule.typ = wafRuleTypeGroup
    · exact htyp
    · simp [ExpandWebACLUpdate, htyp] at h
  · intro h
    by_cases htyp : aclRule.typ = wafRuleTypeGroup
    · simp [ExpandWebACLUpdate, htyp] at h
    · exact htyp

/-- Witness for the amended C10 theorem: a group-typed rule with a
configured override action expands to an activated rule carrying exactly
the override action. -/
theorem webACL_action_override_amended_witness :
    (ExpandWebACLUpdate "INSERT"
        { action := [], overrideAction := [some { typ := "NONE" }]
          priority := 2, ruleId := "r2", typ := "GROUP" }).activatedRule
      = { action := none, overrideAction := some { typ := "NONE" }
          priority := some 2, ruleId := some "r2", typ := "GROUP" } := by
  exact (webACL_action_override_amended "INSERT"
      { action := [], overrideAction := [some { typ := "NONE" }]
        priority := 2, ruleId := "r2", typ := "GROUP" } []).1
    { typ := "NONE" } [] rfl rfl
